import Mathlib

/-!
Shallow embedding of the core of the `lasker` chess engine.

Sources embedded here:
  * `src/play/types.rs`      : `Color`, `Piece`, `Square`, `Direction`, `CastlingRights`
  * `src/play/board/mod.rs`  : `Board` and its mutation/query operations
  * `src/play/move/mod.rs`   : packed `Move`, `MoveList`, `make_move`, `unmake_move`
  * `src/play/position/mod.rs` : `Position`, `legal_moves`, `is_square_attacked`
  * `src/play/mod.rs`        : `GameState`
  * `src/play/key.rs`        : `PositionKeyGenerator::hash_board`
  * `src/board/mod.rs`       : the older `BoardState` module (used by `perft`)
  * `src/perft/mod.rs`       : `perft`

The constants tables (`DIRECTIONS`, `MAILBOX`, `MAILBOX_IDX`, `SQUARES`,
`PIECES`, ...) are embedded from `src/board/constants.rs`; the `play` module
imports a `constants` sibling that is not present in the source tree, but every
index and value used by `src/play` (`attack_direction_idx` ranges, mailbox
arithmetic, piece ordinals) matches the tables of `src/board/constants.rs`,
which are therefore used for both modules.

Machine integers are modelled as `Nat`: every bitboard is built from `|||`,
`&&&`, `^^^` and `1 <<< k` with `k < 64`, so all values stay below `2 ^ 64` and
no `u64` wrap-around can occur.  Rust panics (calls to `unwrap`, `todo!`, and
out-of-range indexing) are modelled by the distinguished error value
`MoveErr.crashed` (or by `Option.none` for the older module): a panic aborts
the process, it is not a returned `Err`.
-/

namespace Lasker

/-- Color enum from `src/play/types.rs`. -/
inductive Color where
  | white
  | black
deriving DecidableEq, Repr

/-- Function `flip_side` match arms (`src/play/position/mod.rs` lines 68-73). -/
def Color.flip : Color → Color
  | .white => .black
  | .black => .white

/-- Piece enum from `src/play/types.rs` (12 variants, ordinal 0..11). -/
inductive Piece where
  | whitePawn
  | whiteKnight
  | whiteBishop
  | whiteRook
  | whiteQueen
  | whiteKing
  | blackPawn
  | blackKnight
  | blackBishop
  | blackRook
  | blackQueen
  | blackKing
deriving DecidableEq, Repr

/-- Ordinal of a piece (`Piece as usize` in the source). -/
def Piece.ord : Piece → Nat
  | .whitePawn => 0
  | .whiteKnight => 1
  | .whiteBishop => 2
  | .whiteRook => 3
  | .whiteQueen => 4
  | .whiteKing => 5
  | .blackPawn => 6
  | .blackKnight => 7
  | .blackBishop => 8
  | .blackRook => 9
  | .blackQueen => 10
  | .blackKing => 11

/-- Method `Piece::color` from `src/play/types.rs`. -/
def Piece.color : Piece → Color
  | .whitePawn | .whiteKnight | .whiteBishop | .whiteRook | .whiteQueen | .whiteKing => .white
  | _ => .black

/-- Method `Piece::opposing_color` from `src/play/types.rs`. -/
def Piece.opposingColor (p : Piece) : Color :=
  p.color.flip

/-- Method `Piece::can_slide` from `src/play/types.rs`. -/
def Piece.canSlide : Piece → Bool
  | .whitePawn | .blackPawn | .whiteKnight | .blackKnight | .whiteKing | .blackKing => false
  | _ => true

/-- Constant `PIECES` from `src/board/constants.rs`. -/
def PIECES : List Piece :=
  [.whitePawn, .whiteKnight, .whiteBishop, .whiteRook, .whiteQueen, .whiteKing,
   .blackPawn, .blackKnight, .blackBishop, .blackRook, .blackQueen, .blackKing]

/-- Constant `WHITE_PIECES` from `src/board/constants.rs`. -/
def WHITE_PIECES : List Piece :=
  [.whitePawn, .whiteKnight, .whiteBishop, .whiteRook, .whiteQueen, .whiteKing]

/-- Constant `BLACK_PIECES` from `src/board/constants.rs`. -/
def BLACK_PIECES : List Piece :=
  [.blackPawn, .blackKnight, .blackBishop, .blackRook, .blackQueen, .blackKing]

/-- Square, the enum with 64 values `A1 = 0 .. H8 = 63` from `src/play/types.rs`. -/
abbrev Square := Fin 64

/-- Helper to name concrete squares by ordinal. -/
def mkSq (n : Nat) (h : n < 64 := by decide) : Square := ⟨n, h⟩

/-- Method `Square::rank` gives `RANKS[pos >> 3]`, i.e. `Rank(pos / 8 + 1)`;
we represent the rank by its number 1..8. -/
def Square.rankNo (sq : Square) : Nat :=
  sq.val / 8 + 1

/-- Direction discriminant values from `src/play/types.rs` (`repr(i8)`). -/
def dirNorth : Int := 10
def dirNorthEast : Int := 11
def dirEast : Int := 1
def dirSouthEast : Int := -9
def dirSouth : Int := -10
def dirSouthWest : Int := -11
def dirWest : Int := -1
def dirNorthWest : Int := 9

/-- Constant `DIRECTIONS` from `src/board/constants.rs`: rook directions at
0..4, bishop at 4..8, knight at 8..16. -/
def DIRECTIONS : List Int :=
  [10, 1, -1, -10, -9, -11, 11, 9, 21, 19, 12, -8, -19, -21, -12, 8]

/-- Method `Piece::attack_direction_idx` from `src/play/types.rs`, returned as
the sub-list `DIRECTIONS[range]` that all call sites immediately take. -/
def Piece.attackDirs : Piece → List Int
  | .whitePawn => (DIRECTIONS.drop 4).take 2
  | .blackPawn => (DIRECTIONS.drop 6).take 2
  | .whiteKnight | .blackKnight => (DIRECTIONS.drop 8).take 8
  | .whiteBishop | .blackBishop => (DIRECTIONS.drop 4).take 4
  | .whiteRook | .blackRook => (DIRECTIONS.drop 0).take 4
  | _ => (DIRECTIONS.drop 0).take 8

/-- Constant `MAILBOX` from `src/board/constants.rs` (120 cells, border = -1). -/
def MAILBOX : List Int :=
  [-1, -1, -1, -1, -1, -1, -1, -1, -1, -1,
   -1, -1, -1, -1, -1, -1, -1, -1, -1, -1,
   -1,  0,  1,  2,  3,  4,  5,  6,  7, -1,
   -1,  8,  9, 10, 11, 12, 13, 14, 15, -1,
   -1, 16, 17, 18, 19, 20, 21, 22, 23, -1,
   -1, 24, 25, 26, 27, 28, 29, 30, 31, -1,
   -1, 32, 33, 34, 35, 36, 37, 38, 39, -1,
   -1, 40, 41, 42, 43, 44, 45, 46, 47, -1,
   -1, 48, 49, 50, 51, 52, 53, 54, 55, -1,
   -1, 56, 57, 58, 59, 60, 61, 62, 63, -1,
   -1, -1, -1, -1, -1, -1, -1, -1, -1, -1,
   -1, -1, -1, -1, -1, -1, -1, -1, -1, -1]

/-- Constant `MAILBOX_IDX` from `src/board/constants.rs`. -/
def MAILBOX_IDX : List Nat :=
  [21, 22, 23, 24, 25, 26, 27, 28,
   31, 32, 33, 34, 35, 36, 37, 38,
   41, 42, 43, 44, 45, 46, 47, 48,
   51, 52, 53, 54, 55, 56, 57, 58,
   61, 62, 63, 64, 65, 66, 67, 68,
   71, 72, 73, 74, 75, 76, 77, 78,
   81, 82, 83, 84, 85, 86, 87, 88,
   91, 92, 93, 94, 95, 96, 97, 98]

/-- Combination of `Square + i8` (mailbox lookup, `src/play/types.rs` lines
361-368) with the guarded `Square::from_mailbox_no` conversion: `step sq d`
is `some s` when `MAILBOX[MAILBOX_IDX[sq] + d]` is an on-board ordinal `s`,
and `none` when the lookup yields the border sentinel `-1`.  Out-of-range
indexing of the 120-cell array (which would panic in Rust but is unreachable
from the call sites, all offsets keeping the index inside `0..119`) also
yields `none`. -/
def step (sq : Square) (d : Int) : Option Square :=
  let idx : Int := (MAILBOX_IDX.getD sq.val 0 : Nat) + d
  let m : Int := if 0 ≤ idx then MAILBOX.getD idx.toNat (-1) else -1
  if h : 0 ≤ m ∧ m < 64 then
    some ⟨m.toNat, by omega⟩
  else
    none

/-- Bitboard: a `u64` interpreted as a set of squares (`src/board/bitboard.rs`).
Represented as a `Nat` that always stays below `2 ^ 64`. -/
abbrev Bitboard := Nat

/-- Conversion `Square -> Bitboard` (`0x1 << self as usize`). -/
def sqBB (sq : Square) : Bitboard :=
  1 <<< sq.val

/-- Conversion `From<Vec<Square>> for Bitboard`. -/
def bbOfSquares (l : List Square) : Bitboard :=
  l.foldl (fun acc sq => acc ||| sqBB sq) 0

/-- Function `set_bits` (`src/board/utils.rs`) composed with the
`Into<Vec<Square>>` conversion: the squares of a bitboard in ascending
ordinal order. -/
def bbSquares (bb : Bitboard) : List Square :=
  (List.finRange 64).filter (fun sq => bb &&& (1 <<< sq.val) != 0)

/-- Constant `RANK_1 = 0xFF`; `Into<Bitboard> for Rank` is
`RANK_1 << (8 * (rank - 1))`. -/
def rankBB (rankNo : Nat) : Bitboard :=
  0xFF <<< (8 * (rankNo - 1))

/-- Board struct: 12 piece bitboards (`src/play/board/mod.rs`; the struct and
all operations embedded below are textually identical in the older
`src/board/mod.rs`, so a single embedding serves both modules). -/
structure Board where
  whitePawns : Bitboard
  whiteKnights : Bitboard
  whiteBishops : Bitboard
  whiteRooks : Bitboard
  whiteQueens : Bitboard
  whiteKing : Bitboard
  blackPawns : Bitboard
  blackKnights : Bitboard
  blackBishops : Bitboard
  blackRooks : Bitboard
  blackQueens : Bitboard
  blackKing : Bitboard
deriving DecidableEq, Repr

namespace Board

/-- Constructor `Board::empty`. -/
def empty : Board :=
  ⟨0, 0, 0, 0, 0, 0, 0, 0, 0, 0, 0, 0⟩

/-- Method `Board::bitboard_union`. -/
def bitboardUnion (b : Board) : Bitboard :=
  b.whitePawns ||| b.whiteKnights ||| b.whiteBishops ||| b.whiteRooks |||
  b.whiteQueens ||| b.whiteKing ||| b.blackPawns ||| b.blackBishops |||
  b.blackKnights ||| b.blackRooks ||| b.blackQueens ||| b.blackKing

/-- Method `Board::bitboard`. -/
def bitboard (b : Board) (p : Piece) : Bitboard :=
  match p with
  | .whitePawn => b.whitePawns
  | .whiteKnight => b.whiteKnights
  | .whiteBishop => b.whiteBishops
  | .whiteRook => b.whiteRooks
  | .whiteQueen => b.whiteQueens
  | .whiteKing => b.whiteKing
  | .blackPawn => b.blackPawns
  | .blackKnight => b.blackKnights
  | .blackBishop => b.blackBishops
  | .blackRook => b.blackRooks
  | .blackQueen => b.blackQueens
  | .blackKing => b.blackKing

/-- Method `Board::sq_taken`. -/
def sqTaken (b : Board) (sq : Square) : Bool :=
  b.bitboardUnion &&& sqBB sq != 0

/-- Method `Board::sq_taken_by_color`. -/
def sqTakenByColor (b : Board) (sq : Square) (c : Color) : Bool :=
  let bb :=
    match c with
    | .white =>
        b.whitePawns ||| b.whiteKnights ||| b.whiteBishops ||| b.whiteRooks |||
        b.whiteQueens ||| b.whiteKing
    | .black =>
        b.blackPawns ||| b.blackBishops ||| b.blackKnights ||| b.blackRooks |||
        b.blackQueens ||| b.blackKing
  bb &&& sqBB sq != 0

/-- Method `Board::piece` (piece-at-square, fixed probe order; `sq_bb` is
inlined). -/
def pieceAt (b : Board) (sq : Square) : Option Piece :=
  if sqBB sq &&& b.whitePawns != 0 then some .whitePawn
  else if sqBB sq &&& b.whiteKnights != 0 then some .whiteKnight
  else if sqBB sq &&& b.whiteBishops != 0 then some .whiteBishop
  else if sqBB sq &&& b.whiteRooks != 0 then some .whiteRook
  else if sqBB sq &&& b.whiteQueens != 0 then some .whiteQueen
  else if sqBB sq &&& b.whiteKing != 0 then some .whiteKing
  else if sqBB sq &&& b.blackPawns != 0 then some .blackPawn
  else if sqBB sq &&& b.blackKnights != 0 then some .blackKnight
  else if sqBB sq &&& b.blackBishops != 0 then some .blackBishop
  else if sqBB sq &&& b.blackRooks != 0 then some .blackRook
  else if sqBB sq &&& b.blackQueens != 0 then some .blackQueen
  else if sqBB sq &&& b.blackKing != 0 then some .blackKing
  else none

/-- Field update helper used by `add_piece` (the 12-way `match` assigning
`self.<bb> |= sq_bb`). -/
def setOr (b : Board) (p : Piece) (m : Bitboard) : Board :=
  match p with
  | .whitePawn => { b with whitePawns := b.whitePawns ||| m }
  | .whiteKnight => { b with whiteKnights := b.whiteKnights ||| m }
  | .whiteBishop => { b with whiteBishops := b.whiteBishops ||| m }
  | .whiteRook => { b with whiteRooks := b.whiteRooks ||| m }
  | .whiteQueen => { b with whiteQueens := b.whiteQueens ||| m }
  | .whiteKing => { b with whiteKing := b.whiteKing ||| m }
  | .blackPawn => { b with blackPawns := b.blackPawns ||| m }
  | .blackKnight => { b with blackKnights := b.blackKnights ||| m }
  | .blackBishop => { b with blackBishops := b.blackBishops ||| m }
  | .blackRook => { b with blackRooks := b.blackRooks ||| m }
  | .blackQueen => { b with blackQueens := b.blackQueens ||| m }
  | .blackKing => { b with blackKing := b.blackKing ||| m }

/-- Field update helper used by `remove_piece` (the 12-way `match` assigning
`self.<bb> ^= sq_bb`). -/
def setXor (b : Board) (p : Piece) (m : Bitboard) : Board :=
  match p with
  | .whitePawn => { b with whitePawns := b.whitePawns ^^^ m }
  | .whiteKnight => { b with whiteKnights := b.whiteKnights ^^^ m }
  | .whiteBishop => { b with whiteBishops := b.whiteBishops ^^^ m }
  | .whiteRook => { b with whiteRooks := b.whiteRooks ^^^ m }
  | .whiteQueen => { b with whiteQueens := b.whiteQueens ^^^ m }
  | .whiteKing => { b with whiteKing := b.whiteKing ^^^ m }
  | .blackPawn => { b with blackPawns := b.blackPawns ^^^ m }
  | .blackKnight => { b with blackKnights := b.blackKnights ^^^ m }
  | .blackBishop => { b with blackBishops := b.blackBishops ^^^ m }
  | .blackRook => { b with blackRooks := b.blackRooks ^^^ m }
  | .blackQueen => { b with blackQueens := b.blackQueens ^^^ m }
  | .blackKing => { b with blackKing := b.blackKing ^^^ m }

end Board

/-- Move error kinds from `src/play/error.rs`, extended with `crashed`, the
model of a Rust panic (`unwrap` on `None`, out-of-range indexing, `todo!`):
a panic aborts the process, it is never returned as an `Err` value. -/
inductive MoveErr where
  | squareTaken (sq : Square)
  | noPieceOnSquare (sq : Square)
  | insufficientHistory (what : String)
  | stateMismatch (msg : String)
  | crashed
deriving DecidableEq, Repr

namespace Board

/-- Method `Board::add_piece` (`src/play/board/mod.rs` lines 104-125). -/
def addPiece (b : Board) (p : Piece) (sq : Square) : Except MoveErr Board :=
  if b.sqTaken sq then
    .error (.squareTaken sq)
  else
    .ok (b.setOr p (sqBB sq))

/-- Method `Board::remove_piece` (`src/play/board/mod.rs` lines 127-149):
returns the removed piece together with the updated board. -/
def removePiece (b : Board) (sq : Square) : Except MoveErr (Piece × Board) :=
  match b.pieceAt sq with
  | some p => .ok (p, b.setXor p (sqBB sq))
  | none => .error (.noPieceOnSquare sq)

/-- Method `Board::move_piece` (`src/play/board/mod.rs` lines 151-160).  The
source calls `self.piece(&origin).unwrap()`: when `origin` is empty this
panics, modelled by `.error .crashed`. -/
def movePiece (b : Board) (origin dest : Square) : Except MoveErr Board :=
  if b.sqTaken dest then
    .error (.squareTaken dest)
  else
    match b.pieceAt origin with
    | none => .error .crashed
    | some p => do
        let (_, b1) ← b.removePiece origin
        b1.addPiece p dest

/-- Method `Board::pieces` (`src/play/board/mod.rs` lines 163-175). -/
def pieces (b : Board) (c : Color) : List Piece :=
  (match c with
   | Color.white => WHITE_PIECES
   | Color.black => BLACK_PIECES).filter (fun p => b.bitboard p != 0)

/-- Trait impl `Default for Board`: the standard chess starting position. -/
def default : Board where
  whitePawns := rankBB 2
  whiteKnights := bbOfSquares [mkSq 1, mkSq 6]
  whiteBishops := bbOfSquares [mkSq 2, mkSq 5]
  whiteRooks := bbOfSquares [mkSq 0, mkSq 7]
  whiteQueens := sqBB (mkSq 3)
  whiteKing := sqBB (mkSq 4)
  blackPawns := rankBB 7
  blackKnights := bbOfSquares [mkSq 57, mkSq 62]
  blackBishops := bbOfSquares [mkSq 58, mkSq 61]
  blackRooks := bbOfSquares [mkSq 56, mkSq 63]
  blackQueens := sqBB (mkSq 59)
  blackKing := sqBB (mkSq 60)

end Board

/-- Move struct from `src/play/move/mod.rs`: a packed 32-bit value plus a
score (`i8`, modelled as `Int`).  Bits 0-5 from square, 6-11 to square,
12-15 captured piece + 1, 16-19 promoted piece + 1, 20 en-passant flag,
21 pawn-double-push flag, 22 castle flag. -/
structure Move where
  repr : Nat
  score : Int
deriving DecidableEq, Repr

namespace Move

/-- Constructor `Move::empty`. -/
def empty : Move :=
  ⟨0, 0⟩

/-- Constructor `Move::new` (`src/play/move/mod.rs` lines 222-255). -/
def new (src dst : Square) (captured promoted : Option Piece)
    (enPassant pawnStart castle : Bool) : Move :=
  let fromSqBits := src.val
  let toSqBits := dst.val <<< 6
  let capturedPieceBits :=
    (match captured with
     | some p => p.ord + 1
     | none => 0) <<< 12
  let promotedPieceBits :=
    (match promoted with
     | some p => p.ord + 1
     | none => 0) <<< 16
  let enPassantBit := (if enPassant then 1 else 0) <<< 20
  let pawnStartBit := (if pawnStart then 1 else 0) <<< 21
  let castleBit := (if castle then 1 else 0) <<< 22
  ⟨fromSqBits ||| toSqBits ||| capturedPieceBits ||| promotedPieceBits |||
     enPassantBit ||| pawnStartBit ||| castleBit, 0⟩

/-- Accessor `Move::from_sq` (`SQUARES[repr & 0x3F]`). -/
def fromSq (mv : Move) : Square :=
  ⟨(mv.repr &&& 0x3F) % 64, Nat.mod_lt _ (by decide)⟩

/-- Accessor `Move::to_sq` (`SQUARES[(repr >> 6) & 0x3F]`). -/
def toSq (mv : Move) : Square :=
  ⟨((mv.repr >>> 6) &&& 0x3F) % 64, Nat.mod_lt _ (by decide)⟩

/-- Accessor `Move::captured` (`PIECES[idx - 1]` when the nibble is non-zero;
a nibble above 12, unreachable for moves built with `Move::new`, would panic
in Rust and yields `none` here). -/
def captured (mv : Move) : Option Piece :=
  let idx := (mv.repr >>> 12) &&& 0xF
  if idx = 0 then none else PIECES[idx - 1]?

/-- Accessor `Move::promoted`. -/
def promoted (mv : Move) : Option Piece :=
  let idx := (mv.repr >>> 16) &&& 0xF
  if idx = 0 then none else PIECES[idx - 1]?

/-- Accessor `Move::en_passant` (bit 20). -/
def enPassant (mv : Move) : Bool :=
  (mv.repr >>> 20) &&& 1 == 1

/-- Accessor `Move::pawn_start` (bit 21). -/
def pawnStart (mv : Move) : Bool :=
  (mv.repr >>> 21) &&& 1 == 1

/-- Accessor `Move::castle` (bit 22). -/
def castle (mv : Move) : Bool :=
  (mv.repr >>> 22) &&& 1 == 1

/-- Accessor `Move::is_placeholder` (`repr == 0`). -/
def isPlaceholder (mv : Move) : Bool :=
  mv.repr == 0

/-- Derived `Ord for Move` (struct fields in order `repr`, then `score`):
lexicographic comparison, as a boolean `le`. -/
def le (a b : Move) : Bool :=
  a.repr < b.repr || (a.repr == b.repr && a.score ≤ b.score)

/-- The derived move order as a relation. -/
def leProp (a b : Move) : Prop :=
  le a b = true

instance : DecidableRel leProp := fun a b => by
  unfold leProp
  infer_instance

instance : IsTotal Move leProp := by
  constructor
  intro a b
  simp only [leProp, le, Bool.or_eq_true, decide_eq_true_eq, Bool.and_eq_true, beq_iff_eq]
  omega

instance : IsTrans Move leProp := by
  constructor
  intro a b c
  simp only [leProp, le, Bool.or_eq_true, decide_eq_true_eq, Bool.and_eq_true, beq_iff_eq]
  omega

end Move

/-- Constant `MOVE_LIST_SIZE` from `src/play/move/mod.rs`. -/
def MOVE_LIST_SIZE : Nat := 255

/-- MoveList from `src/play/move/mod.rs`: an inline buffer of 255 `Move`
slots, a `count` of pushed moves and an iteration cursor.   For every list
reachable through `MoveList::empty` / `push` / `new` the slots at index
`count ..` hold `Move::empty()` placeholders and the cursor starts at 0, so
the list is faithfully represented by its first `count` slots: the `moves`
field below is `inner[0 .. count]` in push order, `count` is
`moves.length`, and the full buffer is `moves ++ replicate (255 - count)
Move.empty`. -/
structure MoveList where
  moves : List Move
deriving DecidableEq, Repr

namespace MoveList

/-- Constructor `MoveList::empty`. -/
def empty : MoveList :=
  ⟨[]⟩

/-- Method `MoveList::push` (append at index `count`; the panic on a full
buffer is unreachable in every statement below, which all keep the length
at most 255). -/
def push (l : MoveList) (mv : Move) : MoveList :=
  ⟨l.moves ++ [mv]⟩

/-- Accessor for the `count` field. -/
def count (l : MoveList) : Nat :=
  l.moves.length

/-- Constructor `MoveList::new(v)`: pushes every element of `v` in order. -/
def ofVec (v : List Move) : MoveList :=
  ⟨v⟩

/-- The full 255-slot buffer `inner` of the list. -/
def inner (l : MoveList) : List Move :=
  l.moves ++ List.replicate (MOVE_LIST_SIZE - l.moves.length) Move.empty

/-- Method `MoveList::sorted` (`src/play/move/mod.rs` lines 352-356):
copies the whole 255-slot buffer into a vector, sorts it with the derived
`Ord` (`Vec::sort`, a stable sort), and pushes all 255 entries into a fresh
list.  Insertion sort is used here: it is stable, and stable sorts under a
total preorder all produce the same output, so this matches `Vec::sort`. -/
def sorted (l : MoveList) : MoveList :=
  ofVec (List.insertionSort Move.leProp l.inner)

end MoveList

/-- CastlingRights (`src/play/types.rs`): a nibble with bits
`[wK = 1, wQ = 2, bK = 4, bQ = 8]`, modelled by its `u8` value. -/
abbrev CastlingRights := Nat

/-- Method `CastlingRights::all` (`0b1111`). -/
def CastlingRights.all : CastlingRights := 0b1111

/-- Method `CastlingRights::white_kingside`. -/
def crWhiteKingside (r : CastlingRights) : Bool := r &&& 0b1 == 0b1

/-- Method `CastlingRights::white_queenside`. -/
def crWhiteQueenside (r : CastlingRights) : Bool := (r >>> 1) &&& 0b1 == 0b1

/-- Method `CastlingRights::black_kingside`. -/
def crBlackKingside (r : CastlingRights) : Bool := (r >>> 2) &&& 0b1 == 0b1

/-- Method `CastlingRights::black_queenside`. -/
def crBlackQueenside (r : CastlingRights) : Bool := (r >>> 3) &&& 0b1 == 0b1

/-- Method `CastlingRights::unset_white_bits` (`self.0 &= 0b1100`). -/
def crUnsetWhiteBits (r : CastlingRights) : CastlingRights := r &&& 0b1100

/-- Method `CastlingRights::unset_black_bits` (`self.0 &= 0b0011`). -/
def crUnsetBlackBits (r : CastlingRights) : CastlingRights := r &&& 0b0011

/-- Position struct from `src/play/position/mod.rs`. -/
structure Position where
  board : Board
  sideToMove : Color
  enPassant : Option Square
  castlingPermissions : CastlingRights
  castlingPermsHistory : List CastlingRights
deriving DecidableEq, Repr

/-- Trait impl `Default for Position`. -/
def Position.default : Position where
  board := Board.default
  sideToMove := .white
  enPassant := none
  castlingPermissions := CastlingRights.all
  castlingPermsHistory := []

/-- Method `Position::flip_side`. -/
def Position.flipSide (p : Position) : Position :=
  { p with sideToMove := p.sideToMove.flip }

/-- Function `recur_attack_sq_search` (`src/play/utils.rs`, identical to the
private method of `src/board/mod.rs` lines 552-577): walk every direction of
`dirs` outward from `sq` at distance `depth`; report true as soon as a
stepped square lies in `attack_bb`, and keep searching only the directions
whose stepped square is empty.  The extra `fuel` argument makes the
recursion structural; every surviving direction steps through consecutive
on-board squares, so the recursion dies out after at most 8 levels and a
fuel of 120 is never exhausted. -/
def recurAttackSqSearch (b : Board) (dirs : List Int) (sq : Square)
    (depth : Nat) (attackBB : Bitboard) : Nat → Bool
  | 0 => false
  | fuel + 1 =>
    let stepped := dirs.map (fun d => (d, step sq (d * depth)))
    if stepped.any (fun pr =>
        match pr.2 with
        | some other => sqBB other &&& attackBB != 0
        | none => false) then
      true
    else
      let toSearch := stepped.filterMap (fun pr =>
        match pr.2 with
        | some other =>
            if sqBB other &&& attackBB != 0 then none
            else if !b.sqTaken other then some pr.1 else none
        | none => none)
      if toSearch.isEmpty then false
      else recurAttackSqSearch b toSearch sq (depth + 1) attackBB fuel

/-- Attack oracle `is_square_attacked`: for each piece of `c`, probe its
attack directions (a single step for leapers, a ray search for sliders)
against the piece's bitboard.  The body is textually identical on
`Position` (`src/play/position/mod.rs` lines 401-431, reading
`self.board`) and on the older `Board` (`src/board/mod.rs` lines 579-609),
so it is embedded once at the board level. -/
def Board.isSquareAttacked (b : Board) (sq : Square) (c : Color) : Bool :=
  let pieceArray :=
    match c with
    | Color.white => WHITE_PIECES
    | Color.black => BLACK_PIECES
  pieceArray.any fun piece =>
    let attackDirs := piece.attackDirs
    let attackBB := b.bitboard piece
    if attackBB == 0 then false
    else if !piece.canSlide then
      attackDirs.any fun d =>
        match step sq d with
        | some other => sqBB other &&& attackBB != 0
        | none => false
    else
      recurAttackSqSearch b attackDirs sq 1 attackBB 120

/-- Method `Position::is_square_attacked` (`src/play/position/mod.rs` lines
401-431). -/
def Position.isSquareAttacked (p : Position) (sq : Square) (c : Color) : Bool :=
  p.board.isSquareAttacked sq c

/-- Function `recur_move_search` (`src/play/utils.rs`, identical to the
private method of `src/board/mod.rs` lines 525-550): slider ray walk.  For
each direction, the square at distance `depth` is examined; squares not
occupied by `color` produce a move (capturing whatever `piece_at` finds),
and only directions whose examined square was empty survive to depth + 1.
The `fuel` argument (120, never exhausted, see `recurAttackSqSearch`) makes
the recursion structural. -/
def recurMoveSearch (b : Board) (c : Color) (dirs : List Int) (sq : Square)
    (depth : Nat) : Nat → List Move
  | 0 => []
  | fuel + 1 =>
    let stepped := dirs.map (fun d => (d, step sq (d * depth)))
    let emitted := stepped.flatMap (fun pr =>
      match pr.2 with
      | some other =>
          if !b.sqTakenByColor other c then
            [Move.new sq other (b.pieceAt other) none false false false]
          else []
      | none => [])
    let toSearch := stepped.filterMap (fun pr =>
      match pr.2 with
      | some other =>
          if !b.sqTakenByColor other c then
            if (b.pieceAt other).isNone then some pr.1 else none
          else none
      | none => none)
    emitted ++
      (if toSearch.isEmpty then []
       else recurMoveSearch b c toSearch sq (depth + 1) fuel)

/-- White-pawn arm of `Position::legal_moves` (`src/play/position/mod.rs`
lines 85-181): double push from rank 2, single push (promoting to queen from
rank 7), and the two diagonal captures (north-west then north-east), each
with capture-promotion from rank 7 and an en-passant alternative. -/
def whitePawnMoves (p : Position) (sq : Square) : List Move :=
  let startMoves :=
    if sq.rankNo = 2 then
      match step sq (2 * dirNorth), step sq dirNorth with
      | some sq2InFront, some fwd =>
          if !p.board.sqTaken fwd && !p.board.sqTaken sq2InFront then
            [Move.new sq sq2InFront none none false true false]
          else []
      | _, _ => []
    else []
  let fwdMoves :=
    match step sq dirNorth with
    | some fwdSq =>
        let promo := if sq.rankNo = 7 then some Piece.whiteQueen else none
        if !p.board.sqTaken fwdSq then
          [Move.new sq fwdSq none promo false false false]
        else []
    | none => []
  let leftDiag :=
    match step sq dirNorthWest with
    | some ldSq =>
        if p.board.sqTakenByColor ldSq .black then
          let captured := p.board.pieceAt ldSq
          let promo := if sq.rankNo = 7 then some Piece.whiteQueen else none
          [Move.new sq ldSq captured promo false false false]
        else
          match p.enPassant with
          | some epSq =>
              if ldSq = epSq then
                [Move.new sq ldSq (some .blackPawn) none true false false]
              else []
          | none => []
    | none => []
  let rightDiag :=
    match step sq dirNorthEast with
    | some rdSq =>
        if p.board.sqTakenByColor rdSq .black then
          let captured := p.board.pieceAt rdSq
          let promo := if sq.rankNo = 7 then some Piece.whiteQueen else none
          [Move.new sq rdSq captured promo false false false]
        else
          match p.enPassant with
          | some epSq =>
              if rdSq = epSq then
                [Move.new sq rdSq (some .blackPawn) none true false false]
              else []
          | none => []
    | none => []
  startMoves ++ fwdMoves ++ leftDiag ++ rightDiag

/-- Black-pawn arm of `Position::legal_moves` (`src/play/position/mod.rs`
lines 182-278).  Note the source's south-west capture branch (line 225)
tests `sq.rank() == Rank::Rank7` for the promotion piece, unlike the
forward-push and south-east branches which test `Rank2`; the embedding
reproduces that test verbatim. -/
def blackPawnMoves (p : Position) (sq : Square) : List Move :=
  let startMoves :=
    if sq.rankNo = 7 then
      match step sq (2 * dirSouth), step sq dirSouth with
      | some sq2InFront, some fwd =>
          if !p.board.sqTaken fwd && !p.board.sqTaken sq2InFront then
            [Move.new sq sq2InFront none none false true false]
          else []
      | _, _ => []
    else []
  let fwdMoves :=
    match step sq dirSouth with
    | some fwdSq =>
        let promo := if sq.rankNo = 2 then some Piece.blackQueen else none
        if !p.board.sqTaken fwdSq then
          [Move.new sq fwdSq none promo false false false]
        else []
    | none => []
  let leftDiag :=
    match step sq dirSouthWest with
    | some ldSq =>
        if p.board.sqTakenByColor ldSq .white then
          let captured := p.board.pieceAt ldSq
          let promo := if sq.rankNo = 7 then some Piece.blackQueen else none
          [Move.new sq ldSq captured promo false false false]
        else
          match p.enPassant with
          | some epSq =>
              if ldSq = epSq then
                [Move.new sq ldSq (some .whitePawn) none true false false]
              else []
          | none => []
    | none => []
  let rightDiag :=
    match step sq dirSouthEast with
    | some rdSq =>
        if p.board.sqTakenByColor rdSq .white then
          let captured := p.board.pieceAt rdSq
          let promo := if sq.rankNo = 2 then some Piece.blackQueen else none
          [Move.new sq rdSq captured promo false false false]
        else
          match p.enPassant with
          | some epSq =>
              if rdSq = epSq then
                [Move.new sq rdSq (some .whitePawn) none true false false]
              else []
          | none => []
    | none => []
  startMoves ++ fwdMoves ++ leftDiag ++ rightDiag

/-- Knight arm of `Position::legal_moves` (`src/play/position/mod.rs` lines
279-293; the older module's knight arm, `src/board/mod.rs` lines 228-242,
is textually identical). -/
def knightMoves (b : Board) (piece : Piece) (sq : Square) : List Move :=
  piece.attackDirs.flatMap fun d =>
    match step sq d with
    | some otherSq =>
        if !b.sqTakenByColor otherSq piece.color then
          [Move.new sq otherSq (b.pieceAt otherSq) none false false false]
        else []
    | none => []

/-- King single-step moves with the inline attacked-square filter
(`src/play/position/mod.rs` lines 305-320; identical in the older module,
`src/board/mod.rs` lines 253-271). -/
def kingNormalMoves (b : Board) (piece : Piece) (sq : Square) : List Move :=
  piece.attackDirs.flatMap fun d =>
    match step sq d with
    | some otherSq =>
        if !b.sqTakenByColor otherSq piece.color
            && !b.isSquareAttacked otherSq piece.opposingColor then
          [Move.new sq otherSq (b.pieceAt otherSq) none false false false]
        else []
    | none => []

/-- King arm of `Position::legal_moves` (`src/play/position/mod.rs` lines
304-392): the eight single steps (with the inline attacked-square test), then
the two castle pushes of the king's color.  The white kingside castle demands
the right bit, empty f1 and g1, and unattacked f1 and g1; queenside demands
the right bit, empty c1 and d1, and unattacked c1 and d1.  Black mirrors
this on the 8th rank. -/
def kingMoves (p : Position) (piece : Piece) (sq : Square) : List Move :=
  let normal := kingNormalMoves p.board piece sq
  let castles :=
    match piece.color with
    | Color.white =>
        (if crWhiteKingside p.castlingPermissions
            && !p.board.sqTaken (mkSq 5) && !p.board.sqTaken (mkSq 6)
            && !p.isSquareAttacked (mkSq 5) .black
            && !p.isSquareAttacked (mkSq 6) .black then
          [Move.new (mkSq 4) (mkSq 6) none none false false true]
        else []) ++
        (if crWhiteQueenside p.castlingPermissions
            && !p.board.sqTaken (mkSq 2) && !p.board.sqTaken (mkSq 3)
            && !p.isSquareAttacked (mkSq 2) .black
            && !p.isSquareAttacked (mkSq 3) .black then
          [Move.new (mkSq 4) (mkSq 2) none none false false true]
        else [])
    | Color.black =>
        (if crBlackKingside p.castlingPermissions
            && !p.board.sqTaken (mkSq 61) && !p.board.sqTaken (mkSq 62)
            && !p.isSquareAttacked (mkSq 61) .white
            && !p.isSquareAttacked (mkSq 62) .white then
          [Move.new (mkSq 60) (mkSq 62) none none false false true]
        else []) ++
        (if crBlackQueenside p.castlingPermissions
            && !p.board.sqTaken (mkSq 58) && !p.board.sqTaken (mkSq 59)
            && !p.isSquareAttacked (mkSq 58) .white
            && !p.isSquareAttacked (mkSq 59) .white then
          [Move.new (mkSq 60) (mkSq 58) none none false false true]
        else [])
  normal ++ castles

/-- Per-piece dispatch of the `match piece` in `Position::legal_moves`. -/
def pieceMoves (p : Position) (piece : Piece) (sq : Square) : List Move :=
  match piece with
  | .whitePawn => whitePawnMoves p sq
  | .blackPawn => blackPawnMoves p sq
  | .whiteKnight | .blackKnight => knightMoves p.board piece sq
  | .whiteBishop | .blackBishop | .whiteRook | .blackRook
  | .whiteQueen | .blackQueen =>
      recurMoveSearch p.board piece.color piece.attackDirs sq 1 120
  | .whiteKing | .blackKing => kingMoves p piece sq

/-- Method `Position::legal_moves` (`src/play/position/mod.rs` lines 77-397):
for each piece kind of the side to move with a non-empty bitboard, for each
of its squares in ascending order, emit the moves of that piece's arm. -/
def Position.legalMoves (p : Position) : MoveList :=
  MoveList.ofVec <|
    (p.board.pieces p.sideToMove).flatMap fun piece =>
      (bbSquares (p.board.bitboard piece)).flatMap fun sq =>
        pieceMoves p piece sq

/-- GameState struct from `src/play/mod.rs`.  The `fifty_move_country_hist`
and `castling_perms_history` vectors are stacks (push and pop at the end);
they are modelled with the top of the stack at the head of the list.  The
`u8` counters are modelled as `Nat`. -/
structure GameState where
  position : Position
  fiftyMoveCounter : Nat
  fiftyMoveCountryHist : List Nat
  ply : Nat
  historyPly : Nat
  positionKey : Nat
deriving DecidableEq, Repr

/-- Trait impl `Default for GameState`. -/
def GameState.default : GameState where
  position := Position.default
  fiftyMoveCounter := 0
  fiftyMoveCountryHist := []
  ply := 0
  historyPly := 0
  positionKey := 0

/-- Fifty-move counter update of `make_move` (`src/play/move/mod.rs` lines
17-25): reset on a capture or a pawn mover, else increment. -/
def fiftyUpdate (mv : Move) (st : GameState) : Nat :=
  if mv.captured.isSome
      || st.position.board.pieceAt mv.fromSq = some .whitePawn
      || st.position.board.pieceAt mv.fromSq = some .blackPawn then 0
  else st.fiftyMoveCounter + 1

/-- Capture-removal block of `make_move` (`src/play/move/mod.rs` lines
27-42): an ordinary capture removes the piece on `to`; an en-passant capture
removes the pawn one step behind the position's current `en_passant` square
(south of it for a white mover, north for black), failing with
`StateMismatch` when no en-passant square is set. -/
def captureRemoval (mv : Move) (p : Position) : Except MoveErr Board :=
  if mv.captured.isSome && !mv.enPassant then
    (p.board.removePiece mv.toSq).map (·.2)
  else if mv.captured.isSome && mv.enPassant then
    let dir := match p.sideToMove with
      | Color.white => dirSouth
      | Color.black => dirNorth
    match p.enPassant with
    | some sq =>
        match step sq dir with
        | some captureSq => (p.board.removePiece captureSq).map (·.2)
        | none => .error .crashed
    | none => .error (.stateMismatch "Expected en_passant")
  else
    pure p.board

/-- Castle block of `make_move` (`src/play/move/mod.rs` lines 45-62): on a
castle move from e1 the rook hops h1-f1 (king to g1) or a1-d1 (king to c1)
and both white bits are cleared; from e8 the black mirror.  Note both bits
of the castling side are cleared even when `to` matches neither target. -/
def castleUpdate (mv : Move) (b : Board) (perms : CastlingRights) :
    Except MoveErr (Board × CastlingRights) := do
  if mv.castle then
    if mv.fromSq = mkSq 4 then
      let b1 ←
        if mv.toSq = mkSq 6 then b.movePiece (mkSq 7) (mkSq 5)
        else if mv.toSq = mkSq 2 then b.movePiece (mkSq 0) (mkSq 3)
        else pure b
      pure (b1, crUnsetWhiteBits perms)
    else if mv.fromSq = mkSq 60 then
      let b1 ←
        if mv.toSq = mkSq 62 then b.movePiece (mkSq 63) (mkSq 61)
        else if mv.toSq = mkSq 58 then b.movePiece (mkSq 56) (mkSq 59)
        else pure b
      pure (b1, crUnsetBlackBits perms)
    else
      pure (b, perms)
  else
    pure (b, perms)

/-- Rook-home-corner block of `make_move` (`src/play/move/mod.rs` lines
63-83): an if-else chain that clears one castling bit when the move starts
at a corner square AND that corner still holds the rook of its color.  The
occupancy test runs on the board as it stands after `move_piece`, i.e.
after the corner was vacated. -/
def rookHomeClear (mv : Move) (b : Board) (perms : CastlingRights) :
    CastlingRights :=
  if mv.fromSq = mkSq 0 && b.pieceAt (mkSq 0) == some .whiteRook then
    perms &&& (CastlingRights.all - 2)
  else if mv.fromSq = mkSq 7 && b.pieceAt (mkSq 7) == some .whiteRook then
    perms &&& (CastlingRights.all - 1)
  else if mv.fromSq = mkSq 56 && b.pieceAt (mkSq 56) == some .blackRook then
    perms &&& (CastlingRights.all - 8)
  else if mv.fromSq = mkSq 63 && b.pieceAt (mkSq 63) == some .blackRook then
    perms &&& (CastlingRights.all - 4)
  else
    perms

/-- En-passant block of `make_move` (`src/play/move/mod.rs` lines 85-94): a
double push records the square one push-step behind `to` (south of `to` for
a white mover, north for black); any other move clears the field.  The
unguarded `Square::from_mailbox_no` panics off the board. -/
def epUpdate (mv : Move) (side : Color) : Except MoveErr (Option Square) :=
  if mv.pawnStart then
    let dir := match side with
      | Color.white => dirSouth
      | Color.black => dirNorth
    match step mv.toSq dir with
    | some sq => .ok (some sq)
    | none => .error .crashed
  else
    .ok none

/-- Promotion block of `make_move` (`src/play/move/mod.rs` lines 98-101):
replace the pawn that just arrived on `to` by the promoted piece. -/
def promoUpdate (mv : Move) (b : Board) : Except MoveErr Board :=
  match mv.promoted with
  | some piece => do
      let (_, b1) ← b.removePiece mv.toSq
      b1.addPiece piece mv.toSq
  | none => pure b

/-- Function `make_move` (`src/play/move/mod.rs` lines 16-111), assembled
from the blocks above in source order: fifty-move update, capture removal,
`move_piece(from, to)`, castle rook hop and bit clears, rook-home-corner
clears, en-passant update, promotion replacement, ply increment, side flip,
and the pushes of the (already updated) fifty-move counter and castling
permissions onto their history stacks.  The `// TODO: pos key` line means
`position_key` is never touched. -/
def makeMove (mv : Move) (st : GameState) : Except MoveErr GameState := do
  let fifty := fiftyUpdate mv st
  let board1 ← captureRemoval mv st.position
  let board2 ← board1.movePiece mv.fromSq mv.toSq
  let (board3, perms1) ← castleUpdate mv board2 st.position.castlingPermissions
  let perms2 := rookHomeClear mv board3 perms1
  let epNew ← epUpdate mv st.position.sideToMove
  let board4 ← promoUpdate mv board3
  pure {
    position := {
      board := board4
      sideToMove := st.position.sideToMove.flip
      enPassant := epNew
      castlingPermissions := perms2
      castlingPermsHistory := perms2 :: st.position.castlingPermsHistory }
    fiftyMoveCounter := fifty
    fiftyMoveCountryHist := fifty :: st.fiftyMoveCountryHist
    ply := st.ply + 1
    historyPly := st.historyPly
    positionKey := st.positionKey }

/-- Function `unmake_move` (`src/play/move/mod.rs` lines 115-170): undo the
promotion (or move the piece back), restore a non-en-passant captured piece
on `to`, for an en-passant move re-add the captured pawn (north of `to` when
the current side to move is white, south when black) and set `en_passant`
back to `to` — any other move sets it to `None` — then decrement the ply,
flip the side back, and pop the two history stacks into the counter and the
castling permissions. -/
def unmakeMove (mv : Move) (st : GameState) : Except MoveErr GameState := do
  let board1 ←
    match mv.promoted with
    | some piece => do
        let (_, b1) ← st.position.board.removePiece mv.toSq
        let pawn := match piece.color with
          | Color.white => Piece.whitePawn
          | Color.black => Piece.blackPawn
        b1.addPiece pawn mv.fromSq
    | none => st.position.board.movePiece mv.toSq mv.fromSq
  let board2 ←
    if !mv.enPassant then
      match mv.captured with
      | some piece => board1.addPiece piece mv.toSq
      | none => pure board1
    else pure board1
  let (board3, epNew) ←
    if mv.enPassant then
      match st.position.sideToMove with
      | Color.white =>
          match step mv.toSq dirNorth with
          | some sq => (board2.addPiece .whitePawn sq).map fun b => (b, some mv.toSq)
          | none => .error MoveErr.crashed
      | Color.black =>
          match step mv.toSq dirSouth with
          | some sq => (board2.addPiece .blackPawn sq).map fun b => (b, some mv.toSq)
          | none => .error MoveErr.crashed
    else pure (board2, none)
  match st.fiftyMoveCountryHist with
  | [] => .error (.insufficientHistory "fifty_move_counter")
  | fifty :: fiftyRest =>
    match st.position.castlingPermsHistory with
    | [] => .error (.insufficientHistory "castling_permissions")
    | perms :: permsRest =>
      pure {
        position := {
          board := board3
          sideToMove := st.position.sideToMove.flip
          enPassant := epNew
          castlingPermissions := perms
          castlingPermsHistory := permsRest }
        fiftyMoveCounter := fifty
        fiftyMoveCountryHist := fiftyRest
        ply := st.ply - 1
        historyPly := st.historyPly
        positionKey := st.positionKey }

/-- PositionKeyGenerator from `src/play/key.rs`.  The tables are filled with
`rand::random::<u64>()` at construction; they are modelled as unconstrained
functions so statements can quantify over (or instantiate) the table
contents. -/
structure PositionKeyGenerator where
  pieceHashes : Nat → Nat → Nat
  enPassantHashes : Nat → Nat
  sideToMoveHash : Nat
  castlingPermissionHashes : Nat → Nat

/-- Method `PositionKeyGenerator::hash_board` (`src/play/key.rs` lines
48-73): XOR of the piece key of every occupied square, the castling key, the
en-passant key when the square is set, and the side-to-move key when white
is to move. -/
def PositionKeyGenerator.hashBoard (kg : PositionKeyGenerator)
    (st : GameState) : Nat :=
  let key := (List.finRange 64).foldl
    (fun key sq =>
      match st.position.board.pieceAt sq with
      | some piece => key ^^^ kg.pieceHashes piece.ord sq.val
      | none => key) 0
  let key := key ^^^ kg.castlingPermissionHashes st.position.castlingPermissions
  let key :=
    match st.position.enPassant with
    | some sq => key ^^^ kg.enPassantHashes sq.val
    | none => key
  if st.position.sideToMove = .white then key ^^^ kg.sideToMoveHash else key

/-! The older `crate::board` module (`src/board/mod.rs`), consumed by
`src/perft/mod.rs`.  Its `Board` and attack oracle are textually identical
to the `play` versions embedded above and are reused; its `legal_moves`
differs from the `play` one (no en-passant branches and no castling), and
its `make_move` is `todo!()`. -/

/-- BoardState struct from `src/board/mod.rs` lines 17-27. -/
structure BoardStateOld where
  board : Board
  sideToMove : Color
  enPassant : Option Square
  fiftyMoveCounter : Nat
  ply : Nat
  historyPly : Nat
  positionKey : Nat
  castlingPermissions : CastlingRights
deriving DecidableEq, Repr

/-- Trait impl `Default for BoardState` (`src/board/mod.rs` lines 279-292). -/
def BoardStateOld.default : BoardStateOld where
  board := Board.default
  sideToMove := .white
  enPassant := none
  fiftyMoveCounter := 0
  ply := 0
  historyPly := 0
  positionKey := 0
  castlingPermissions := 0b1111

/-- White-pawn arm of the older `BoardState::legal_moves`
(`src/board/mod.rs` lines 86-156): like the `play` arm but with no
en-passant alternative on the diagonals. -/
def oldWhitePawnMoves (b : Board) (sq : Square) : List Move :=
  let startMoves :=
    if sq.rankNo = 2 then
      match step sq (2 * dirNorth), step sq dirNorth with
      | some sq2InFront, some fwd =>
          if !b.sqTaken fwd && !b.sqTaken sq2InFront then
            [Move.new sq sq2InFront none none false true false]
          else []
      | _, _ => []
    else []
  let fwdMoves :=
    match step sq dirNorth with
    | some fwdSq =>
        let promo := if sq.rankNo = 7 then some Piece.whiteQueen else none
        if !b.sqTaken fwdSq then
          [Move.new sq fwdSq none promo false false false]
        else []
    | none => []
  let leftDiag :=
    match step sq dirNorthWest with
    | some ldSq =>
        if b.sqTakenByColor ldSq .black then
          let promo := if sq.rankNo = 7 then some Piece.whiteQueen else none
          [Move.new sq ldSq (b.pieceAt ldSq) promo false false false]
        else []
    | none => []
  let rightDiag :=
    match step sq dirNorthEast with
    | some rdSq =>
        if b.sqTakenByColor rdSq .black then
          let promo := if sq.rankNo = 7 then some Piece.whiteQueen else none
          [Move.new sq rdSq (b.pieceAt rdSq) promo false false false]
        else []
    | none => []
  startMoves ++ fwdMoves ++ leftDiag ++ rightDiag

/-- Black-pawn arm of the older `BoardState::legal_moves`
(`src/board/mod.rs` lines 157-227), reproducing the `Rank7` promotion test
of its south-west capture branch (line 202). -/
def oldBlackPawnMoves (b : Board) (sq : Square) : List Move :=
  let startMoves :=
    if sq.rankNo = 7 then
      match step sq (2 * dirSouth), step sq dirSouth with
      | some sq2InFront, some fwd =>
          if !b.sqTaken fwd && !b.sqTaken sq2InFront then
            [Move.new sq sq2InFront none none false true false]
          else []
      | _, _ => []
    else []
  let fwdMoves :=
    match step sq dirSouth with
    | some fwdSq =>
        let promo := if sq.rankNo = 2 then some Piece.blackQueen else none
        if !b.sqTaken fwdSq then
          [Move.new sq fwdSq none promo false false false]
        else []
    | none => []
  let leftDiag :=
    match step sq dirSouthWest with
    | some ldSq =>
        if b.sqTakenByColor ldSq .white then
          let promo := if sq.rankNo = 7 then some Piece.blackQueen else none
          [Move.new sq ldSq (b.pieceAt ldSq) promo false false false]
        else []
    | none => []
  let rightDiag :=
    match step sq dirSouthEast with
    | some rdSq =>
        if b.sqTakenByColor rdSq .white then
          let promo := if sq.rankNo = 2 then some Piece.blackQueen else none
          [Move.new sq rdSq (b.pieceAt rdSq) promo false false false]
        else []
    | none => []
  startMoves ++ fwdMoves ++ leftDiag ++ rightDiag

/-- Per-piece dispatch of the older `BoardState::legal_moves`
(`src/board/mod.rs` lines 80-277): pawn arms without en passant, the shared
knight and slider arms, and the king arm without castling. -/
def oldPieceMoves (b : Board) (piece : Piece) (sq : Square) : List Move :=
  match piece with
  | .whitePawn => oldWhitePawnMoves b sq
  | .blackPawn => oldBlackPawnMoves b sq
  | .whiteKnight | .blackKnight => knightMoves b piece sq
  | .whiteBishop | .blackBishop | .whiteRook | .blackRook
  | .whiteQueen | .blackQueen =>
      recurMoveSearch b piece.color piece.attackDirs sq 1 120
  | .whiteKing | .blackKing => kingNormalMoves b piece sq

/-- Method `BoardState::legal_moves` (`src/board/mod.rs` lines 80-277). -/
def BoardStateOld.legalMoves (st : BoardStateOld) (c : Color) : List Move :=
  (st.board.pieces c).flatMap fun piece =>
    (bbSquares (st.board.bitboard piece)).flatMap fun sq =>
      oldPieceMoves st.board piece sq

/-- Method `BoardState::make_move` (`src/board/mod.rs` lines 72-74): the
body is `todo!()`, an unconditional panic, modelled as `none`. -/
def BoardStateOld.makeMove (_st : BoardStateOld) (_mv : Move) :
    Option BoardStateOld :=
  none

/-- Function `perft` (`src/perft/mod.rs` lines 31-40): 1 at depth 0,
otherwise the sum over the legal moves of the node counts after making each
move at depth - 1.  The source invokes `state.legal_moves()`; the method is
declared with a color parameter, supplied here as the state's side to move.
A panic anywhere below (in particular the `todo!()` of `make_move`) is
`none`. -/
def perft (st : BoardStateOld) : Nat → Option Nat
  | 0 => some 1
  | depth + 1 =>
      (st.legalMoves st.sideToMove).foldlM
        (fun nodes mv => do
          let st' ← st.makeMove mv
          let sub ← perft st' depth
          pure (nodes + sub)) 0

/-! Concrete moves, positions and key tables used by the statements below. -/

deriving instance DecidableEq for Except

/-- Direction of the square one push-step behind a mover's destination
(the `match state.position.side_to_move` of `make_move` lines 86-89). -/
def pawnBehindDir : Color → Int
  | .white => dirSouth
  | .black => dirNorth

/-- Knight move g1-f3 (a quiet non-pawn move of the starting position). -/
def mvNf3 : Move :=
  Move.new (mkSq 6) (mkSq 21) none none false false false

/-- Double pawn push a2-a4 with the pawn-start flag, as the generator emits
it from the starting position. -/
def mvA2A4 : Move :=
  Move.new (mkSq 8) (mkSq 24) none none false true false

/-- The state reached by `make_move(a2a4)` from the default state. -/
def stAfterA2A4 : GameState :=
  ((makeMove mvA2A4 GameState.default).toOption).getD GameState.default

/-- A concrete Zobrist key table: every piece, en-passant and castling key
is 0 and the side-to-move key is 1.  (`PositionKeyGenerator::new` draws the
table from `rand::random::<u64>()`; any table with a non-zero entry that the
start position uses exhibits the same divergence.) -/
def kgSideOnly : PositionKeyGenerator where
  pieceHashes := fun _ _ => 0
  enPassantHashes := fun _ => 0
  sideToMoveHash := 1
  castlingPermissionHashes := fun _ => 0

/-- Board with a pinned white rook: white king a1 and rook b1, black rook h1
and king h8; the b1 rook is pinned along the first rank. -/
def pinnedRookBoard : Board :=
  { Board.empty with
    whiteKing := sqBB (mkSq 0)
    whiteRooks := sqBB (mkSq 1)
    blackKing := sqBB (mkSq 63)
    blackRooks := sqBB (mkSq 7) }

/-- Game state around `pinnedRookBoard`, white to move. -/
def pinnedRookState : GameState :=
  { GameState.default with
    position := { Position.default with board := pinnedRookBoard } }

/-- The pinned rook's quiet move b1-b2. -/
def mvRb1b2 : Move :=
  Move.new (mkSq 1) (mkSq 9) none none false false false

/-- Board with white king e1 and both white rooks on their home corners a1
and h1, black king e8; all four castling bits set. -/
def cornerRookBoard : Board :=
  { Board.empty with
    whiteKing := sqBB (mkSq 4)
    whiteRooks := bbOfSquares [mkSq 0, mkSq 7]
    blackKing := sqBB (mkSq 60) }

/-- Game state around `cornerRookBoard`. -/
def cornerRookState : GameState :=
  { GameState.default with
    position := { Position.default with board := cornerRookBoard } }

/-- The h1 rook's quiet move h1-h2, leaving its home corner. -/
def mvRh1h2 : Move :=
  Move.new (mkSq 7) (mkSq 15) none none false false false

/-- Position with white king e1, rook a1, and a white knight still on b1
(c1 and d1 empty), black king e8; queenside castling rights set. -/
def queensideBlockedPos : Position :=
  { Position.default with
    board :=
      { Board.empty with
        whiteKing := sqBB (mkSq 4)
        whiteRooks := sqBB (mkSq 0)
        whiteKnights := sqBB (mkSq 1)
        blackKing := sqBB (mkSq 60) } }

/-- The white queenside castle move e1-c1 as the generator encodes it. -/
def mvCastleQ : Move :=
  Move.new (mkSq 4) (mkSq 2) none none false false true

/-- Position with white king e1 (in check from the black rook on e8) and
rook h1, f1 and g1 empty and unattacked; black king a8. -/
def checkedKingPos : Position :=
  { Position.default with
    board :=
      { Board.empty with
        whiteKing := sqBB (mkSq 4)
        whiteRooks := sqBB (mkSq 7)
        blackKing := sqBB (mkSq 56)
        blackRooks := sqBB (mkSq 60) } }

/-- The white kingside castle move e1-g1 as the generator encodes it. -/
def mvCastleK : Move :=
  Move.new (mkSq 4) (mkSq 6) none none false false true

/-- Position with a black pawn on b2 (its promotion rank) and a white rook
on a1 it can capture; white king g4, black king a6; black to move. -/
def blackPawnCapturePos : Position :=
  { Position.default with
    board :=
      { Board.empty with
        whiteRooks := sqBB (mkSq 0)
        blackPawns := sqBB (mkSq 9)
        whiteKing := sqBB (mkSq 30)
        blackKing := sqBB (mkSq 40) }
    sideToMove := .black }

/-- The black pawn's capture b2xa1 exactly as the generator emits it:
captured piece white rook, no promotion piece. -/
def mvB2xa1 : Move :=
  Move.new (mkSq 9) (mkSq 0) (some .whiteRook) none false false false

/-- A MoveList holding the single (non-placeholder) move g1-f3. -/
def mlOne : MoveList :=
  ⟨[mvNf3]⟩

/-! Verification of the claims. -/

/-- C1: the make/unmake round trip is NOT bit-for-bit.  The knight move
g1-f3 is emitted by `legal_moves` from the default (starting) state, whose
fifty-move counter is 0; after `make_move` followed by `unmake_move` of
that move the fifty-move counter is 1, because `make_move` pushes the
already-updated counter onto the history stack and `unmake_move` pops that
post-move value back. -/
theorem make_unmake_not_bit_for_bit :
    mvNf3 ∈ GameState.default.position.legalMoves.moves ∧
    GameState.default.fiftyMoveCounter = 0 ∧
    ((makeMove mvNf3 GameState.default).bind (unmakeMove mvNf3)).toOption.map
        (fun s => s.fiftyMoveCounter) = some 1 := by
  decide

/-- C2: `legal_moves` emits moves of pinned pieces.  In `pinnedRookState`
(white king a1, white rook b1, black rook h1) the rook move b1-b2 is in the
emitted list, yet after applying it with `make_move` the white king on a1
is attacked by black, so the emitted move is illegal. -/
theorem legal_moves_emits_pinned_rook_move :
    pinnedRookState.position.board.pieceAt (mkSq 0) = some .whiteKing ∧
    mvRb1b2 ∈ pinnedRookState.position.legalMoves.moves ∧
    (makeMove mvRb1b2 pinnedRookState).toOption.map
        (fun s => s.position.board.isSquareAttacked (mkSq 0) .black) =
      some true := by
  decide

/-- C3: `perft` does return 1 at depth 0 for every state, but from the
standard start position at depth 4 (in fact at any positive depth) it hits
the `todo!()` body of `BoardState::make_move` and panics instead of
returning 197281. -/
theorem perft_depth0_but_depth4_panics :
    (∀ st : BoardStateOld, perft st 0 = some 1) ∧
    perft BoardStateOld.default 4 = none := by
  exact ⟨fun _ => rfl, by decide⟩

/-- C4: moving a rook off its home corner does NOT clear the castling bit.
From `cornerRookState` (white rooks a1 and h1, all four bits set) the move
h1-h2 leaves the castling permissions at `0b1111`: the source tests
`board.piece(&H1) == Some(WhiteRook)` only after `move_piece` has already
vacated h1, so the clearing branch never fires. -/
theorem rook_leaving_home_corner_keeps_castling_bit :
    cornerRookState.position.castlingPermissions = CastlingRights.all ∧
    (makeMove mvRh1h2 cornerRookState).toOption.map
        (fun s => s.position.castlingPermissions) = some CastlingRights.all ∧
    crWhiteKingside CastlingRights.all = true := by
  decide

/-- C5: castle moves are emitted without checking that the b1/b8 knight
square is empty and without checking that the king is not in check.  In
`queensideBlockedPos` a white knight still stands on b1 yet the queenside
castle e1-c1 is emitted; in `checkedKingPos` the white king on e1 is
attacked by the black rook on e8 yet the kingside castle e1-g1 is
emitted. -/
theorem castle_emitted_despite_blocked_b1_and_check :
    (queensideBlockedPos.board.sqTaken (mkSq 1) = true ∧
      mvCastleQ ∈ queensideBlockedPos.legalMoves.moves) ∧
    (checkedKingPos.isSquareAttacked (mkSq 4) .black = true ∧
      mvCastleK ∈ checkedKingPos.legalMoves.moves) := by
  decide

/-- C6: the `position_key` field is never maintained (`make_move` contains
only a `// TODO: pos key`).  With the key table `kgSideOnly` (side-to-move
key 1, all other keys 0), after the sequence make(a2a4); unmake(a2a4) from
the fresh default state the from-scratch recomputation `hash_board` yields
1 while the maintained `position_key` still holds its initial 0. -/
theorem position_key_diverges_from_hash_board :
    mvA2A4 ∈ GameState.default.position.legalMoves.moves ∧
    ((makeMove mvA2A4 GameState.default).bind (unmakeMove mvA2A4)).toOption.map
        (fun s => (kgSideOnly.hashBoard s, s.positionKey)) = some (1, 0) := by
  decide

/-- C7: after a successful `make_move`, the `en_passant` field holds the
square one push-step behind the destination (south of `to` for a white
mover, north for a black mover) exactly when the move carries the
pawn-double-push flag, and `None` after every other move. -/
theorem make_move_sets_en_passant_iff_pawn_start
    (mv : Move) (st st' : GameState) (h : makeMove mv st = .ok st') :
    st'.position.enPassant =
      (if mv.pawnStart then step mv.toSq (pawnBehindDir st.position.sideToMove)
       else none) := by
  unfold makeMove epUpdate at h
  simp only [bind, Except.bind, pure, Except.pure, pawnBehindDir] at h ⊢
  split at h
  · exact absurd h (by simp)
  case _ b1 hb1 =>
  split at h
  · exact absurd h (by simp)
  case _ b2 hb2 =>
  split at h
  · exact absurd h (by simp)
  case _ pr hpr =>
  obtain ⟨b3, perms1⟩ := pr
  split at h
  · exact absurd h (by simp)
  case _ v hv =>
  split at h
  · exact absurd h (by simp)
  case _ b4 hb4 =>
  cases h
  split at hv
  case _ hps =>
    split at hv
    case _ sq hsq =>
      cases hv
      simp [hps, hsq]
    case _ hsq =>
      exact absurd hv (by simp)
  case _ hps =>
    cases hv
    simp [hps]

/-- Witness for C7: the double push a2-a4 from the default state succeeds
and records a3 (= the square behind a4 for the white mover). -/
theorem make_move_sets_en_passant_iff_pawn_start_witness :
    makeMove mvA2A4 GameState.default = .ok stAfterA2A4 ∧
    stAfterA2A4.position.enPassant =
      (if mvA2A4.pawnStart then
        step mvA2A4.toSq (pawnBehindDir GameState.default.position.sideToMove)
       else none) :=
  ⟨by decide,
   make_move_sets_en_passant_iff_pawn_start mvA2A4 GameState.default
     stAfterA2A4 (by decide)⟩

/-- C8: a black pawn on its promotion rank 2 capturing towards the
south-west gets NO promotion piece: the south-west branch of the black pawn
arm tests `Rank7` instead of `Rank2`.  In `blackPawnCapturePos` the only
emitted move from b2 to a1 is the capture with `promoted = None`, leaving a
pawn on rank 1. -/
theorem black_pawn_promotion_rank_wrong_on_southwest_capture :
    (mkSq 9 : Square).rankNo = 2 ∧
    blackPawnCapturePos.legalMoves.moves.filter
        (fun mv => mv.fromSq == mkSq 9 && mv.toSq == mkSq 0) = [mvB2xa1] ∧
    mvB2xa1.promoted = none := by
  decide

/-! Bit-level helper lemmas for the board-mutation statements. -/

/-- The occupancy test of a single square bit, phrased through `testBit`. -/
theorem and_sqBB_bne (x : Nat) (sq : Square) :
    (x &&& sqBB sq != 0) = x.testBit sq.val := by
  rw [sqBB, Nat.shiftLeft_eq, one_mul, Nat.and_two_pow]
  rcases h : x.testBit sq.val <;> simp [h]

/-- Commuted form of `and_sqBB_bne`. -/
theorem sqBB_and_bne (x : Nat) (sq : Square) :
    (sqBB sq &&& x != 0) = x.testBit sq.val := by
  rw [Nat.and_comm]
  exact and_sqBB_bne x sq

/-- A square's own bit is set in its bitboard. -/
theorem sqBB_testBit_self (sq : Square) : (sqBB sq).testBit sq.val = true := by
  rw [sqBB, Nat.shiftLeft_eq, one_mul]
  exact Nat.testBit_two_pow_self

/-- A square's bitboard has no other bit set. -/
theorem sqBB_testBit_ne (o d : Square) (h : o ≠ d) :
    (sqBB o).testBit d.val = false := by
  rw [sqBB, Nat.shiftLeft_eq, one_mul]
  exact Nat.testBit_two_pow_of_ne (fun hv => h (Fin.ext hv))

/-- An empty square means the square's bit is clear in each of the twelve
piece bitboards. -/
theorem sqTaken_eq_false_iff (b : Board) (sq : Square) :
    b.sqTaken sq = false ↔
      (b.whitePawns.testBit sq.val = false ∧ b.whiteKnights.testBit sq.val = false ∧
       b.whiteBishops.testBit sq.val = false ∧ b.whiteRooks.testBit sq.val = false ∧
       b.whiteQueens.testBit sq.val = false ∧ b.whiteKing.testBit sq.val = false ∧
       b.blackPawns.testBit sq.val = false ∧ b.blackKnights.testBit sq.val = false ∧
       b.blackBishops.testBit sq.val = false ∧ b.blackRooks.testBit sq.val = false ∧
       b.blackQueens.testBit sq.val = false ∧ b.blackKing.testBit sq.val = false) := by
  unfold Board.sqTaken Board.bitboardUnion
  rw [and_sqBB_bne]
  simp only [Nat.testBit_or, Bool.or_eq_false_iff]
  tauto

/-- A square holding a piece is occupied. -/
theorem sqTaken_of_pieceAt_some (b : Board) (sq : Square) (p : Piece)
    (h : b.pieceAt sq = some p) : b.sqTaken sq = true := by
  rcases hc : b.sqTaken sq
  · exfalso
    rw [sqTaken_eq_false_iff] at hc
    obtain ⟨c1, c2, c3, c4, c5, c6, c7, c8, c9, c10, c11, c12⟩ := hc
    unfold Board.pieceAt at h
    simp only [sqBB_and_bne] at h
    simp [c1, c2, c3, c4, c5, c6, c7, c8, c9, c10, c11, c12] at h
  · rfl

/-- Adding a piece to a free square makes `piece_at` report that piece. -/
theorem pieceAt_setOr_self (b : Board) (p : Piece) (sq : Square)
    (h : b.sqTaken sq = false) :
    (b.setOr p (sqBB sq)).pieceAt sq = some p := by
  rw [sqTaken_eq_false_iff] at h
  obtain ⟨h1, h2, h3, h4, h5, h6, h7, h8, h9, h10, h11, h12⟩ := h
  cases p <;>
    simp [Board.setOr, Board.pieceAt, sqBB_and_bne, Nat.testBit_or,
      h1, h2, h3, h4, h5, h6, h7, h8, h9, h10, h11, h12, sqBB_testBit_self]

/-- Clearing a bit of one square does not change the occupancy of
another. -/
theorem sqTaken_setXor_ne (b : Board) (p : Piece) (o d : Square) (hne : o ≠ d) :
    (b.setXor p (sqBB o)).sqTaken d = b.sqTaken d := by
  cases p <;>
    simp [Board.setXor, Board.sqTaken, Board.bitboardUnion, and_sqBB_bne,
      Nat.testBit_or, Nat.testBit_xor, sqBB_testBit_ne o d hne]

/-- Success case of `move_piece`: occupied origin and free destination. -/
theorem movePiece_ok_of (b : Board) (o d : Square) (p : Piece)
    (hd : b.sqTaken d = false) (ho : b.pieceAt o = some p) :
    ∃ b', b.movePiece o d = .ok b' := by
  have hto : b.sqTaken o = true := sqTaken_of_pieceAt_some b o p ho
  have hne : o ≠ d := by
    intro he
    rw [he, hd] at hto
    cases hto
  refine ⟨(b.setXor p (sqBB o)).setOr p (sqBB d), ?_⟩
  unfold Board.movePiece
  rw [hd]
  simp only [Bool.false_eq_true, if_false, ho]
  unfold Board.removePiece
  rw [ho]
  simp only [bind, Except.bind]
  unfold Board.addPiece
  rw [sqTaken_setXor_ne b p o d hne, hd]
  simp

/-- C9 (amended): `add_piece` fails exactly when the square is occupied and
otherwise puts the piece there; `remove_piece` fails exactly when the square
is empty and otherwise returns the resident piece; `move_piece` returns
`SquareTaken` when the destination is occupied, but with a free destination
and an EMPTY origin it panics (the `unwrap` of `src/play/board/mod.rs` line
155, modelled by `.crashed`) instead of returning an error, and succeeds
when the origin is occupied. -/
theorem board_mutation_outcomes :
    (∀ (b : Board) (p : Piece) (sq : Square),
        ((∃ e, b.addPiece p sq = .error e) ↔ b.sqTaken sq = true) ∧
        (b.sqTaken sq = false →
          ∃ b', b.addPiece p sq = .ok b' ∧ b'.pieceAt sq = some p)) ∧
    (∀ (b : Board) (sq : Square),
        ((∃ e, b.removePiece sq = .error e) ↔ b.pieceAt sq = none) ∧
        (∀ p b', b.removePiece sq = .ok (p, b') → b.pieceAt sq = some p)) ∧
    (∀ (b : Board) (o d : Square),
        (b.sqTaken d = true → b.movePiece o d = .error (.squareTaken d)) ∧
        (b.sqTaken d = false → b.pieceAt o = none →
          b.movePiece o d = .error .crashed) ∧
        (b.sqTaken d = false → ∀ p, b.pieceAt o = some p →
          ∃ b', b.movePiece o d = .ok b')) := by
  refine ⟨fun b p sq => ⟨?_, ?_⟩, fun b sq => ⟨?_, ?_⟩, fun b o d => ⟨?_, ?_, ?_⟩⟩
  · unfold Board.addPiece
    rcases h : b.sqTaken sq <;> simp [h]
  · intro h
    refine ⟨b.setOr p (sqBB sq), ?_, pieceAt_setOr_self b p sq h⟩
    unfold Board.addPiece
    rw [h]
    simp
  · unfold Board.removePiece
    rcases h : b.pieceAt sq <;> simp
  · intro p b' h
    unfold Board.removePiece at h
    rcases hh : b.pieceAt sq <;> rw [hh] at h <;> simp_all
  · intro h
    unfold Board.movePiece
    rw [h]
    simp
  · intro hd ho
    unfold Board.movePiece
    rw [hd, ho]
    simp
  · intro hd p ho
    exact movePiece_ok_of b o d p hd ho

/-- Counterexample for C9 as stated: on the empty board, `move_piece` from
the empty a1 to the free b1 panics (the model of `unwrap` on `None`) rather
than returning an `Err` value. -/
theorem move_piece_empty_origin_panics :
    Board.empty.movePiece (mkSq 0) (mkSq 1) = .error .crashed := by
  decide

/-- Witness for the amended C9 statement: each hypothesis of
`board_mutation_outcomes` discharged at concrete squares of the default
board (e4 free, a1 occupied, a3 empty origin, the a2 pawn). -/
theorem board_mutation_outcomes_witness :
    (Board.default.sqTaken (mkSq 28) = false ∧
      ∃ b', Board.default.addPiece .whiteQueen (mkSq 28) = .ok b' ∧
        b'.pieceAt (mkSq 28) = some .whiteQueen) ∧
    (Board.default.sqTaken (mkSq 0) = true ∧
      Board.default.movePiece (mkSq 28) (mkSq 0) = .error (.squareTaken (mkSq 0))) ∧
    (Board.default.sqTaken (mkSq 28) = false ∧
      Board.default.pieceAt (mkSq 16) = none ∧
      Board.default.movePiece (mkSq 16) (mkSq 28) = .error .crashed) ∧
    (Board.default.pieceAt (mkSq 8) = some .whitePawn ∧
      ∃ b', Board.default.movePiece (mkSq 8) (mkSq 28) = .ok b') :=
  ⟨⟨by decide,
    (board_mutation_outcomes.1 Board.default .whiteQueen (mkSq 28)).2 (by decide)⟩,
   ⟨by decide,
    (board_mutation_outcomes.2.2 Board.default (mkSq 28) (mkSq 0)).1 (by decide)⟩,
   ⟨by decide, by decide,
    (board_mutation_outcomes.2.2 Board.default (mkSq 16) (mkSq 28)).2.1
      (by decide) (by decide)⟩,
   ⟨by decide,
    (board_mutation_outcomes.2.2 Board.default (mkSq 8) (mkSq 28)).2.2
      (by decide) .whitePawn (by decide)⟩⟩

/-! Lemmas for the `MoveList::sorted` statement. -/

/-- A move lies at or below the all-zero placeholder in the derived order
exactly when its packed value is 0 and its score is at most 0. -/
theorem empty_le_iff (a : Move) :
    Move.leProp a Move.empty ↔ a.repr = 0 ∧ a.score ≤ 0 := by
  simp [Move.leProp, Move.le, Move.empty]

/-- A list sorted by the derived move order whose elements are placeholders
or have non-zero packed value is its placeholder block followed by its
non-placeholder entries. -/
theorem sorted_placeholder_split :
    ∀ S : List Move, S.Sorted Move.leProp →
      (∀ x ∈ S, x = Move.empty ∨ x.repr ≠ 0) →
      S = List.replicate (S.countP (fun x => x == Move.empty)) Move.empty ++
          S.filter (fun x => !(x == Move.empty)) := by
  intro S
  induction S with
  | nil => intro _ _; simp
  | cons a rest ih =>
    intro hs hd
    have hsc := List.sorted_cons.mp hs
    by_cases ha : a = Move.empty
    · subst ha
      have hrec := ih hsc.2 (fun x hx => hd x (List.mem_cons_of_mem _ hx))
      rw [List.countP_cons, List.filter_cons]
      simp [List.replicate_succ]
      exact hrec
    · have hrepr : a.repr ≠ 0 := (hd a (List.mem_cons_self a rest)).resolve_left ha
      have hnone : ∀ x ∈ rest, ¬(x = Move.empty) := by
        intro x hx he
        have hle := hsc.1 x hx
        rw [he, empty_le_iff] at hle
        exact hrepr hle.1
      have hc : (a :: rest).countP (fun x => x == Move.empty) = 0 := by
        rw [List.countP_eq_zero]
        intro x hx
        rcases List.mem_cons.mp hx with hxa | hxr
        · subst hxa; simpa using ha
        · simpa using hnone x hxr
      rw [hc]
      simp only [List.replicate_zero, List.nil_append]
      rw [List.filter_eq_self.mpr]
      intro x hx
      rcases List.mem_cons.mp hx with hxa | hxr
      · subst hxa; simpa using ha
      · simpa using hnone x hxr

/-- C10: for a MoveList with `k < 255` pushed moves, all non-placeholder,
`sorted()` returns a list whose count is 255 (so the original count is not
preserved): the `255 - k` all-zero placeholders first, followed by a
permutation of the `k` pushed moves. -/
theorem sorted_returns_full_padded_buffer (ml : MoveList)
    (hlen : ml.count < 255)
    (hreal : ∀ mv ∈ ml.moves, mv.isPlaceholder = false) :
    ml.sorted.count = 255 ∧
    ml.sorted.count ≠ ml.count ∧
    ∃ t, ml.sorted.moves =
        List.replicate (255 - ml.count) Move.empty ++ t ∧ t.Perm ml.moves := by
  have hperm : (List.insertionSort Move.leProp ml.inner).Perm ml.inner :=
    List.perm_insertionSort _ _
  have hinnerLen : ml.inner.length = 255 := by
    unfold MoveList.inner MOVE_LIST_SIZE
    rw [List.length_append, List.length_replicate]
    unfold MoveList.count at hlen
    omega
  have hLen : (List.insertionSort Move.leProp ml.inner).length = 255 := by
    rw [hperm.length_eq, hinnerLen]
  have hrepr : ∀ mv ∈ ml.moves, mv.repr ≠ 0 := by
    intro mv hmv
    have := hreal mv hmv
    simpa [Move.isPlaceholder] using this
  have hdich : ∀ x ∈ List.insertionSort Move.leProp ml.inner,
      x = Move.empty ∨ x.repr ≠ 0 := by
    intro x hx
    rw [hperm.mem_iff] at hx
    unfold MoveList.inner at hx
    rcases List.mem_append.mp hx with hm | hr
    · exact Or.inr (hrepr x hm)
    · exact Or.inl (List.eq_of_mem_replicate hr)
  have hsorted : (List.insertionSort Move.leProp ml.inner).Sorted Move.leProp :=
    List.sorted_insertionSort _ _
  have hsplit := sorted_placeholder_split _ hsorted hdich
  have hcount : (List.insertionSort Move.leProp ml.inner).countP
      (fun x => x == Move.empty) = 255 - ml.count := by
    rw [hperm.countP_eq]
    unfold MoveList.inner MOVE_LIST_SIZE
    rw [List.countP_append]
    have h0 : ml.moves.countP (fun x => x == Move.empty) = 0 := by
      rw [List.countP_eq_zero]
      intro x hx
      have := hrepr x hx
      simp only [beq_iff_eq]
      intro he
      rw [he] at this
      exact this rfl
    have hk := (List.countP_eq_length
        (p := fun x => x == Move.empty)
        (l := List.replicate (255 - ml.moves.length) Move.empty)).mpr
      (fun a ha => by rw [List.eq_of_mem_replicate ha]; simp)
    rw [List.length_replicate] at hk
    rw [h0, hk]
    unfold MoveList.count
    omega
  constructor
  · show (List.insertionSort Move.leProp ml.inner).length = 255
    exact hLen
  constructor
  · show (List.insertionSort Move.leProp ml.inner).length ≠ ml.count
    rw [hLen]
    omega
  refine ⟨(List.insertionSort Move.leProp ml.inner).filter
      (fun x => !(x == Move.empty)), ?_, ?_⟩
  · show List.insertionSort Move.leProp ml.inner = _
    rw [← hcount]
    exact hsplit
  · have hfp := hperm.filter (fun x => !(x == Move.empty))
    have : ml.inner.filter (fun x => !(x == Move.empty)) = ml.moves := by
      unfold MoveList.inner
      rw [List.filter_append]
      have h1 : ml.moves.filter (fun x => !(x == Move.empty)) = ml.moves := by
        rw [List.filter_eq_self]
        intro a ha
        have := hrepr a ha
        simp only [Bool.not_eq_true', beq_eq_false_iff_ne, ne_eq]
        intro he
        rw [he] at this
        exact this rfl
      have h2 : (List.replicate (MOVE_LIST_SIZE - ml.moves.length) Move.empty).filter
          (fun x => !(x == Move.empty)) = [] := by
        rw [List.filter_eq_nil_iff]
        intro a ha
        rw [List.eq_of_mem_replicate ha]
        simp
      rw [h1, h2, List.append_nil]
    rw [this] at hfp
    exact hfp

/-- Witness for C10: the singleton list holding the (non-placeholder) move
g1-f3 satisfies the hypotheses, so its `sorted()` has count 255 with the
placeholders first. -/
theorem sorted_returns_full_padded_buffer_witness :
    (mlOne.count < 255 ∧ ∀ mv ∈ mlOne.moves, mv.isPlaceholder = false) ∧
    (mlOne.sorted.count = 255 ∧ mlOne.sorted.count ≠ mlOne.count ∧
      ∃ t, mlOne.sorted.moves =
          List.replicate (255 - mlOne.count) Move.empty ++ t ∧
        t.Perm mlOne.moves) :=
  ⟨⟨by decide, by decide⟩,
   sorted_returns_full_padded_buffer mlOne (by decide) (by decide)⟩

end Lasker
